import Mathlib

/-!
Verification of the streamdeck-display-brightness core against its
natural-language specification.

This file gives a shallow embedding of the core services:

* `BrightnessStore` (src/services/brightness-store.ts) — the per-feature
  reconciliation store.  `ContrastStore` (src/services/contrast-store.ts)
  is field-for-field identical up to renaming (`realContrast` for
  `realBrightness`, etc.), so one embedding covers both.
* the availability tracker inside `MonitorManager`
  (`registerReadSuccess` / `registerReadFailure` /
  `hasReachedFailureThreshold`).
* stable-ID derivation (`isDisplayIdStable` / `generateStableId`).
* the refresh deduplication loop and `hasMonitorListChanged`.

JavaScript numbers are modelled as rationals (`ℚ`): every arithmetic
operation the embedded code performs (addition, subtraction,
multiplication, division, `Math.round`, `Math.max`/`Math.min`) is exact
on the inputs the claims are about.  JS `Map`s keyed by monitor id are
modelled as functions `String → Option α`; timestamps (`Date.now()`)
are threaded explicitly as `ℚ` arguments.
-/

/-- JS `Math.round`: round half toward positive infinity. -/
def jsRound (q : ℚ) : ℤ := ⌊q + 1/2⌋

/-- Embeds `clamp` from brightness-store.ts / contrast-store.ts:
`Math.max(min, Math.min(max, value))`. -/
def clamp (value lo hi : ℚ) : ℚ := max lo (min hi value)

/-- Update of a JS `Map` modelled as a function: `map.set(k, v)`. -/
def mapSet {α : Type} (m : String → Option α) (k : String) (v : α) :
    String → Option α :=
  fun k2 => if k2 = k then some v else m k2

/-- Deletion from a JS `Map` modelled as a function: `map.delete(k)`. -/
def mapDelete {α : Type} (m : String → Option α) (k : String) :
    String → Option α :=
  fun k2 => if k2 = k then none else m k2

/-- Embeds `MonitorBrightnessState` from brightness-store.ts (identically
`MonitorContrastState` from contrast-store.ts).  All values are on the
normalized 0-100 scale according to the source comments. -/
structure MonitorBrightnessState where
  realBrightness : ℚ
  virtualBrightness : ℚ
  lastUserUpdate : ℚ
  maxBrightness : ℚ
deriving DecidableEq

/-- Embeds `EnforcementState` from brightness-store.ts.  The rxjs
`subscription` field is represented by mere presence of the record in
the enforcement map: the interval callback checks
`enforcementStates.get(monitorId)` and unsubscribes when absent, so a
deleted entry is observationally an unsubscribed timer. -/
structure EnforcementState where
  targetBrightness : ℚ
  startTime : ℚ
deriving DecidableEq

/-- A value pushed on the `ddcWriteRequests` subject. -/
structure WriteRequest where
  monitorId : String
  brightness : ℚ
deriving DecidableEq

/-- The mutable fields of `BrightnessStore` that the verified operations
touch, plus the three configured timing values. -/
structure Store where
  ddcWriteThrottleMs : ℚ
  enforcementDurationMs : ℚ
  enforcementIntervalMs : ℚ
  monitorStates : String → Option MonitorBrightnessState
  enforcementStates : String → Option EnforcementState
  lastWriteTime : String → Option ℚ

/-- A store with the given timing configuration and no per-monitor
state, as right after construction. -/
def mkStore (throttleMs durationMs intervalMs : ℚ) : Store :=
  { ddcWriteThrottleMs := throttleMs
    enforcementDurationMs := durationMs
    enforcementIntervalMs := intervalMs
    monitorStates := fun _ => none
    enforcementStates := fun _ => none
    lastWriteTime := fun _ => none }

/-- The default state installed by `getOrCreateMonitorState`. -/
def defaultMonitorState : MonitorBrightnessState :=
  { realBrightness := 0, virtualBrightness := 0
    lastUserUpdate := 0, maxBrightness := 100 }

/-- Embeds `getOrCreateMonitorState`: the state a fresh read of the
subject for `monitorId` observes (the side effect of inserting the
default is subsumed by the `state$.next` that every caller performs). -/
def getOrCreateMonitorState (s : Store) (monitorId : String) :
    MonitorBrightnessState :=
  (s.monitorStates monitorId).getD defaultMonitorState

/-- Embeds `stopEnforcement`: unsubscribe and delete the enforcement entry. -/
def stopEnforcement (s : Store) (monitorId : String) : Store :=
  match s.enforcementStates monitorId with
  | some _ => { s with enforcementStates := mapDelete s.enforcementStates monitorId }
  | none => s

/-- Embeds `startEnforcement`: if a task exists, retarget it and reset its
start time; otherwise install a fresh task (subscribing the interval
timer). -/
def startEnforcement (s : Store) (monitorId : String)
    (targetBrightness now : ℚ) : Store :=
  let entry : EnforcementState :=
    { targetBrightness := targetBrightness, startTime := now }
  match s.enforcementStates monitorId with
  | some _ =>
      { s with enforcementStates := mapSet s.enforcementStates monitorId entry }
  | none =>
      { s with enforcementStates := mapSet s.enforcementStates monitorId entry }

/-- The normalization performed by `updateRealBrightness`:
`maxBrightness > 0 ? (brightness / maxBrightness) * 100 : brightness`. -/
def normalizeBrightness (brightness maxBrightness : ℚ) : ℚ :=
  if 0 < maxBrightness then brightness / maxBrightness * 100 else brightness

/-- Embeds `updateRealBrightness(monitorId, brightness, maxBrightness)`:
normalize, cancel enforcement on rounded match, then write the new
state, updating the virtual value only when no enforcement remains. -/
def updateRealBrightness (s : Store) (monitorId : String)
    (brightness maxBrightness : ℚ) : Store :=
  let current := getOrCreateMonitorState s monitorId
  let normalizedBrightness := normalizeBrightness brightness maxBrightness
  let s1 :=
    match s.enforcementStates monitorId with
    | some enforcement =>
        if jsRound normalizedBrightness = jsRound enforcement.targetBrightness
        then stopEnforcement s monitorId else s
    | none => s
  let shouldUpdateVirtual := (s1.enforcementStates monitorId).isNone
  let newState : MonitorBrightnessState :=
    { current with
      realBrightness := normalizedBrightness
      maxBrightness := maxBrightness
      virtualBrightness :=
        if shouldUpdateVirtual then normalizedBrightness
        else current.virtualBrightness }
  { s1 with monitorStates := mapSet s1.monitorStates monitorId newState }

/-- Embeds `setVirtualBrightness(monitorId, brightness)` at time `now`
(`Date.now()`).  Returns the updated store together with the list of
write requests it pushed on `ddcWriteRequests`. -/
def setVirtualBrightness (s : Store) (monitorId : String)
    (brightness now : ℚ) : Store × List WriteRequest :=
  let current := getOrCreateMonitorState s monitorId
  let clampedBrightness := clamp brightness 0 100
  let newState : MonitorBrightnessState :=
    { current with
      virtualBrightness := clampedBrightness
      lastUserUpdate := now }
  let s1 := { s with monitorStates := mapSet s.monitorStates monitorId newState }
  let lastWrite := (s1.lastWriteTime monitorId).getD 0
  let shouldWriteNow := s1.ddcWriteThrottleMs ≤ now - lastWrite
  let (s2, events) :=
    if shouldWriteNow then
      ({ s1 with lastWriteTime := mapSet s1.lastWriteTime monitorId now },
       [{ monitorId := monitorId, brightness := clampedBrightness }])
    else (s1, [])
  (startEnforcement s2 monitorId clampedBrightness now, events)

/-- One firing of the enforcement interval callback for `monitorId` at
time `now`: give up silently past the duration, otherwise re-emit a
write request for the current target. -/
def enforcementTick (s : Store) (monitorId : String) (now : ℚ) :
    Store × List WriteRequest :=
  match s.enforcementStates monitorId with
  | none => (s, [])
  | some enforcement =>
      if s.enforcementDurationMs ≤ now - enforcement.startTime then
        (stopEnforcement s monitorId, [])
      else
        (s, [{ monitorId := monitorId
               brightness := enforcement.targetBrightness }])

/-- Embeds `getAverageVirtualBrightness(monitorIds)`: mean of the virtual
values of the ids present in the store; 0 for an empty id list and when
no id is known. -/
def getAverageVirtualBrightness (s : Store) (monitorIds : List String) : ℚ :=
  if monitorIds.length = 0 then 0
  else
    let values := monitorIds.filterMap
      (fun id => (s.monitorStates id).map (·.virtualBrightness))
    if 0 < values.length then values.sum / values.length else 0

/-- The body of the `map` stage of the average change stream:
`values.length > 0 ? sum / values.length : 0`. -/
def combinedAverage (values : List ℚ) : ℚ :=
  if 0 < values.length then values.sum / values.length else 0

/-- Helper for `distinctUntilChanged`: drop elements equal to the value
most recently emitted. -/
def distinctAfter (prev : ℚ) : List ℚ → List ℚ
  | [] => []
  | x :: xs => if x = prev then distinctAfter prev xs else x :: distinctAfter x xs

/-- rxjs `distinctUntilChanged` on a finite emission sequence: the first
value always passes, later values pass only when different from the
previously passed one. -/
def distinctUntilChanged : List ℚ → List ℚ
  | [] => []
  | x :: xs => x :: distinctAfter x xs

/-- The average change-stream pipeline on a finite run: each element of
`snapshots` is the tuple of virtual values `combineLatest` delivers
after one input change; the stream maps it through `combinedAverage`
and de-duplicates consecutively equal results. -/
def averageStreamEmissions (snapshots : List (List ℚ)) : List ℚ :=
  distinctUntilChanged (snapshots.map combinedAverage)

/-- Run a sequence of `setVirtualBrightness` calls for one monitor; the
list gives `(brightness, time)` pairs in call order.  Returns the
final store and the concatenated write requests. -/
def runSetVirtualCalls (s : Store) (monitorId : String) :
    List (ℚ × ℚ) → Store × List WriteRequest
  | [] => (s, [])
  | (v, t) :: rest =>
      let out := setVirtualBrightness s monitorId v t
      let outRest := runSetVirtualCalls out.1 monitorId rest
      (outRest.1, out.2 ++ outRest.2)

/-- Run the enforcement interval callback at each time in the list, in
order, collecting the emitted write requests. -/
def runEnforcementTicks (s : Store) (monitorId : String) :
    List ℚ → Store × List WriteRequest
  | [] => (s, [])
  | t :: ts =>
      let out := enforcementTick s monitorId t
      let outRest := runEnforcementTicks out.1 monitorId ts
      (outRest.1, out.2 ++ outRest.2)

/-- The FeatureState range invariant claimed by the spec: both stored
values lie on the 0..100 scale. -/
def stateInRange (st : MonitorBrightnessState) : Prop :=
  0 ≤ st.realBrightness ∧ st.realBrightness ≤ 100 ∧
  0 ≤ st.virtualBrightness ∧ st.virtualBrightness ≤ 100

instance (st : MonitorBrightnessState) : Decidable (stateInRange st) := by
  unfold stateInRange; infer_instance

/-- The range invariant over a whole store. -/
def storeInRange (s : Store) : Prop :=
  ∀ monitorId st, s.monitorStates monitorId = some st → stateInRange st

/-- Embeds `MonitorManager.AVAILABILITY_FAILURE_THRESHOLD`. -/
def AVAILABILITY_FAILURE_THRESHOLD : ℕ := 3

/-- Embeds `registerReadSuccess(monitorId)`: `consecutiveReadFailures.delete`. -/
def registerReadSuccess (m : String → Option ℕ) (monitorId : String) :
    String → Option ℕ :=
  mapDelete m monitorId

/-- Embeds `registerReadFailure(monitorId)`: increment `(get ?? 0) + 1` and
store it back (the source also returns the new count). -/
def registerReadFailure (m : String → Option ℕ) (monitorId : String) :
    String → Option ℕ :=
  mapSet m monitorId ((m monitorId).getD 0 + 1)

/-- Embeds `hasReachedFailureThreshold(monitorId)`:
`(get ?? 0) >= AVAILABILITY_FAILURE_THRESHOLD`. -/
def hasReachedFailureThreshold (m : String → Option ℕ) (monitorId : String) :
    Bool :=
  AVAILABILITY_FAILURE_THRESHOLD ≤ (m monitorId).getD 0

/-- An observation fed to the availability tracker during refresh/poll
passes. -/
inductive ReadEvent where
  | success (monitorId : String)
  | failure (monitorId : String)
deriving DecidableEq

/-- Replay a sequence of register calls against the failure-count map. -/
def applyReadEvents (m : String → Option ℕ) : List ReadEvent → (String → Option ℕ)
  | [] => m
  | ReadEvent.success monitorId :: evs =>
      applyReadEvents (registerReadSuccess m monitorId) evs
  | ReadEvent.failure monitorId :: evs =>
      applyReadEvents (registerReadFailure m monitorId) evs

/-- Modelled from the spec's words: the number of consecutive
`registerFailure` calls for `monitorId` with no intervening
`registerSuccess` for it, starting from count `c`.  Events for other
ids are ignored. -/
def consecutiveFailuresFrom (c : ℕ) (monitorId : String) :
    List ReadEvent → ℕ
  | [] => c
  | ReadEvent.success otherId :: evs =>
      consecutiveFailuresFrom (if otherId = monitorId then 0 else c)
        monitorId evs
  | ReadEvent.failure otherId :: evs =>
      consecutiveFailuresFrom (if otherId = monitorId then c + 1 else c)
        monitorId evs

/-- Modelled from the spec's words: consecutive failures since the last
success (or since the start). -/
def consecutiveFailures (monitorId : String) (evs : List ReadEvent) : ℕ :=
  consecutiveFailuresFrom 0 monitorId evs

/-- JS truthiness of a possibly-absent string attribute: absent and the
empty string are both falsy, so the empty string stands for both. -/
def truthyStr (s : String) : Bool := s != ""

/-- JS truthiness of the optional numeric EDID serial: absent and 0 are
falsy. -/
def truthyNum : Option ℤ → Bool
  | none => false
  | some n => n != 0

/-- Embeds the test `display.edidData && display.edidData.length > 0`. -/
def hasNonemptyEdid : Option (List ℕ) → Bool
  | none => false
  | some bytes => decide (0 < bytes.length)

/-- Embeds JS `String.startsWith` over the underlying character lists. -/
def startsWithChars : List Char → List Char → Bool
  | _, [] => true
  | [], _ :: _ => false
  | c :: cs, d :: ds => c = d && startsWithChars cs ds

/-- JS `String.includes` (substring containment) over character lists. -/
def containsChars : List Char → List Char → Bool
  | [], pat => startsWithChars [] pat
  | c :: rest, pat => startsWithChars (c :: rest) pat || containsChars rest pat

/-- String wrapper around `startsWithChars`. -/
def strStartsWith (s pat : String) : Bool := startsWithChars s.toList pat.toList

/-- String wrapper around `containsChars`. -/
def strIncludes (s pat : String) : Bool := containsChars s.toList pat.toList

/-- The stable displayId prefixes recognized by `isDisplayIdStable`. -/
def stablePrefixList : List String := ["si:iid:", "si:hw:", "mon:", "displayid:"]

/-- The unstable displayId patterns rejected by `isDisplayIdStable`. -/
def unstablePatternList : List String := ["Generic PnP Monitor", "index:", "hmoni:"]

/-- Embeds `isDisplayIdStable(displayId)`: reject when any unstable
pattern is contained, otherwise accept when some stable prefix starts
the id. -/
def isDisplayIdStable (displayId : String) : Bool :=
  if unstablePatternList.any (fun pat => strIncludes displayId pat) then false
  else stablePrefixList.any (fun pat => strStartsWith displayId pat)

/-- The ddc-node `Display` attributes consulted by `generateStableId`.
Optional string attributes are the empty string when absent (same JS
truthiness); `serial` is the optional numeric EDID serial, `edidData`
the optional raw EDID byte blob. -/
structure Display where
  displayId : String
  serialNumber : String
  manufacturerId : String
  modelName : String
  serial : Option ℤ
  edidData : Option (List ℕ)
  backend : String
  index : ℕ
deriving DecidableEq

/-- JS `b.toString(16).padStart(2, '0')`. -/
def byteToHex (b : ℕ) : String :=
  let digits := (Nat.toDigits 16 b).asString
  if digits.length < 2 then "0" ++ digits else digits

/-- Hex rendering of the first 18 EDID bytes, joined with the empty
separator. -/
def edidHeaderHex (bytes : List ℕ) : String :=
  String.join ((bytes.take 18).map byteToHex)

/-- Embeds `generateStableId(display)` from the identity resolver. -/
def generateStableId (d : Display) : String :=
  if truthyStr d.displayId && isDisplayIdStable d.displayId then
    d.displayId
  else if truthyStr d.serialNumber then
    "serial:" ++ d.serialNumber
  else if truthyStr d.manufacturerId && truthyStr d.modelName &&
      truthyNum d.serial then
    "composite:" ++ d.manufacturerId ++ ":" ++ d.modelName ++ ":" ++
      toString (d.serial.getD 0)
  else if hasNonemptyEdid d.edidData then
    "edid:" ++ edidHeaderHex (d.edidData.getD [])
  else if truthyStr d.manufacturerId && truthyStr d.modelName then
    "composite:" ++ d.manufacturerId ++ ":" ++ d.modelName
  else
    "fallback:" ++ d.backend ++ ":" ++ d.displayId ++ ":" ++ toString d.index

/-- The concrete display of the C6 counterexample: unstable displayId,
human-readable serial "304NTPC4A088" present, manufacturer "GSM" and
model "LG ULTRA" also present. -/
def dispSerialCx : Display :=
  { displayId := "index:3", serialNumber := "304NTPC4A088"
    manufacturerId := "GSM", modelName := "LG ULTRA"
    serial := some 5, edidData := none, backend := "winapi", index := 0 }

/-- What the refresh dedup loop inspects of one tested monitor: its
computed stable id and whether its display carries a non-empty raw
EDID blob (`entry.monitor.display.edidData?.length` truthiness). -/
structure TestedMonitor where
  id : String
  hasEdid : Bool
deriving DecidableEq

/-- One iteration of the dedup-by-id loop: insert when the id is new,
otherwise replace only when the new entry has EDID data and the
existing one does not.  The same preference is used both for the
successful entries and when collecting `failedMonitorsById`. -/
def dedupStep (m : String → Option TestedMonitor) (entry : TestedMonitor) :
    String → Option TestedMonitor :=
  match m entry.id with
  | none => mapSet m entry.id entry
  | some existing =>
      if entry.hasEdid && !existing.hasEdid then mapSet m entry.id entry
      else m

/-- The `deduped` map after folding the successfully-tested entries. -/
def dedupSuccesses (tested : List TestedMonitor) :
    String → Option TestedMonitor :=
  tested.foldl dedupStep (fun _ => none)

/-- Embeds `failedMonitorsById` after the test loop (same EDID preference). -/
def failedById (failed : List TestedMonitor) :
    String → Option TestedMonitor :=
  failed.foldl dedupStep (fun _ => none)

/-- The observable outcome of one refresh pass's dedup phase: each tested
entry carries `featureSupported`; successes are deduped by id with
EDID preference, and a failed entry enters the result only when no
success claimed its id (the loop skips ids already deduped).  The Bool
in the result records whether the kept entry read the feature
successfully. -/
def refreshDedup (tested : List (TestedMonitor × Bool)) :
    String → Option (TestedMonitor × Bool) :=
  let succMap := dedupSuccesses ((tested.filter (fun e => e.2)).map (fun e => e.1))
  let failMap := failedById ((tested.filter (fun e => !e.2)).map (fun e => e.1))
  fun monitorId =>
    match succMap monitorId with
    | some entry => some (entry, true)
    | none => (failMap monitorId).map (fun entry => (entry, false))

/-- A store in which monitors "a" and "b" hold virtual values 20 and 80. -/
def demoStore : Store :=
  (setVirtualBrightness
    (setVirtualBrightness (mkStore 100 2000 200) "a" 20 0).1 "b" 80 0).1

/-- The `MonitorInfo` fields consulted by change detection (the cached
optional metadata fields are never compared there). -/
structure MonitorInfo where
  id : String
  runtimeIndex : ℕ
  name : String
  brightness : ℚ
  maxBrightness : ℚ
  available : Bool
  backend : String
deriving DecidableEq

/-- Embeds `new Map(list.map((m) => [m.id, m]))`: on duplicate ids the
last entry wins. -/
def mapById (monitors : List MonitorInfo) : String → Option MonitorInfo :=
  monitors.foldl (fun m info => mapSet m info.id info) (fun _ => none)

/-- Embeds `hasMonitorListChanged(newInfos)` against the cached list:
lengths first, then per new entry the cached record with the same id
must exist and agree on availability, backend, runtime index and name. -/
def hasMonitorListChanged (cache newInfos : List MonitorInfo) : Bool :=
  if newInfos.length ≠ cache.length then true
  else
    newInfos.any (fun m =>
      match mapById cache m.id with
      | none => true
      | some cached =>
          cached.available != m.available || cached.backend != m.backend ||
          cached.runtimeIndex != m.runtimeIndex || cached.name != m.name)

/-- Emission gate of `refreshMonitors`: the change subject fires exactly
when `hasMonitorListChanged` returned true for the freshly built list. -/
def refreshEmitsChange (cache newInfos : List MonitorInfo) : Bool :=
  hasMonitorListChanged cache newInfos

/-- Cached entry of the C9 counterexample. -/
def cxCacheInfo : MonitorInfo :=
  { id := "m", runtimeIndex := 0, name := "Monitor", brightness := 50
    maxBrightness := 100, available := true, backend := "winapi" }

/-- Fresh entry of the C9 counterexample: same id, availability, backend
and name; only the runtime enumeration index moved. -/
def cxNewInfo : MonitorInfo := { cxCacheInfo with runtimeIndex := 1 }

/-- Lemma: `startEnforcement` leaves the last-write map untouched. -/
theorem startEnforcement_lastWriteTime (s : Store) (monitorId : String)
    (tv n : ℚ) :
    (startEnforcement s monitorId tv n).lastWriteTime = s.lastWriteTime := by
  unfold startEnforcement
  cases s.enforcementStates monitorId <;> rfl

/-- Lemma: `startEnforcement` leaves the throttle setting untouched. -/
theorem startEnforcement_throttle (s : Store) (monitorId : String) (tv n : ℚ) :
    (startEnforcement s monitorId tv n).ddcWriteThrottleMs =
      s.ddcWriteThrottleMs := by
  unfold startEnforcement
  cases s.enforcementStates monitorId <;> rfl

/-- When the throttle check passes, `setVirtualBrightness` emits exactly
one write request carrying the clamped value and records the write
timestamp. -/
theorem setVirtual_write_branch (s : Store) (monitorId : String) (v now : ℚ)
    (h : s.ddcWriteThrottleMs ≤ now - (s.lastWriteTime monitorId).getD 0) :
    (setVirtualBrightness s monitorId v now).2 =
      [{ monitorId := monitorId, brightness := clamp v 0 100 }] ∧
    (setVirtualBrightness s monitorId v now).1.lastWriteTime monitorId =
      some now ∧
    (setVirtualBrightness s monitorId v now).1.ddcWriteThrottleMs =
      s.ddcWriteThrottleMs := by
  unfold setVirtualBrightness
  simp only [startEnforcement_lastWriteTime, startEnforcement_throttle]
  simp [h, mapSet]

/-- When the throttle check fails, `setVirtualBrightness` emits nothing
and leaves the last-write timestamp untouched. -/
theorem setVirtual_drop_branch (s : Store) (monitorId : String) (v now : ℚ)
    (h : ¬ s.ddcWriteThrottleMs ≤ now - (s.lastWriteTime monitorId).getD 0) :
    (setVirtualBrightness s monitorId v now).2 = [] ∧
    (setVirtualBrightness s monitorId v now).1.lastWriteTime =
      s.lastWriteTime ∧
    (setVirtualBrightness s monitorId v now).1.ddcWriteThrottleMs =
      s.ddcWriteThrottleMs := by
  unfold setVirtualBrightness
  simp only [startEnforcement_lastWriteTime, startEnforcement_throttle]
  simp [h]

/-- As long as every further call lands strictly less than one throttle
interval after the recorded last write, no further write is emitted. -/
theorem runSetVirtual_all_dropped (monitorId : String) (t1 : ℚ)
    (rest : List (ℚ × ℚ)) :
    ∀ s : Store, s.lastWriteTime monitorId = some t1 →
    (∀ p ∈ rest, p.2 - t1 < s.ddcWriteThrottleMs) →
    (runSetVirtualCalls s monitorId rest).2 = [] := by
  induction rest with
  | nil => intro s _ _; rfl
  | cons p rest ih =>
      intro s hlast hall
      have hp : p.2 - t1 < s.ddcWriteThrottleMs := hall p (List.mem_cons_self p rest)
      have hdrop : ¬ s.ddcWriteThrottleMs ≤
          p.2 - (s.lastWriteTime monitorId).getD 0 := by
        rw [hlast]; simpa using not_le.mpr hp
      obtain ⟨hemit, hkeep, hthr⟩ := setVirtual_drop_branch s monitorId p.1 p.2 hdrop
      have ihres := ih (setVirtualBrightness s monitorId p.1 p.2).1
        (by rw [hkeep, hlast])
        (by intro q hq; rw [hthr]; exact hall q (List.mem_cons_of_mem p hq))
      simp [runSetVirtualCalls, hemit, ihres]

/-- C1 (amended): starting with no hardware write for `monitorId` within
the preceding `ddcWriteThrottleMs`, a burst of `setVirtualBrightness`
calls confined to one throttle window emits exactly one write request,
and it carries the FIRST value supplied in the window (clamped to
[0,100]); the later values of the burst are dropped by the throttle. -/
theorem setVirtual_throttle_window_single_first_write (s : Store)
    (monitorId : String) (v1 t1 : ℚ) (rest : List (ℚ × ℚ))
    (hfirst : s.ddcWriteThrottleMs ≤ t1 - (s.lastWriteTime monitorId).getD 0)
    (hwindow : ∀ p ∈ rest, p.2 < t1 + s.ddcWriteThrottleMs) :
    (runSetVirtualCalls s monitorId ((v1, t1) :: rest)).2 =
      [{ monitorId := monitorId, brightness := clamp v1 0 100 }] := by
  obtain ⟨hemit, hstamp, hthr⟩ := setVirtual_write_branch s monitorId v1 t1 hfirst
  have hrest := runSetVirtual_all_dropped monitorId t1 rest
    (setVirtualBrightness s monitorId v1 t1).1 hstamp
    (by intro q hq; rw [hthr]; have := hwindow q hq; linarith)
  simp [runSetVirtualCalls, hemit, hrest]

/-- Witness for `setVirtual_throttle_window_single_first_write`: with a
100ms throttle, calls (20 at t=1000) and (80 at t=1050) emit the single
request carrying 20. -/
theorem setVirtual_throttle_window_single_first_write_witness :
    (runSetVirtualCalls (mkStore 100 2000 200) "m" [(20, 1000), (80, 1050)]).2 =
      [{ monitorId := "m", brightness := 20 }] := by
  have h := setVirtual_throttle_window_single_first_write
    (mkStore 100 2000 200) "m" 20 1000 [(80, 1050)]
    (by norm_num [mkStore])
    (by intro p hp
        rcases List.mem_singleton.mp hp with rfl
        norm_num [mkStore])
  have hc : clamp 20 0 100 = 20 := by norm_num [clamp]
  rw [hc] at h
  exact h

/-- Counterexample to C1 as stated: two calls (20 at t=1000, 80 at
t=1050) inside one 100ms throttle window emit exactly one write
request, but it carries 20 — the first value — not the last value 80
the claim asserts. -/
theorem setVirtual_throttle_window_last_value_cx :
    (runSetVirtualCalls (mkStore 100 2000 200) "m" [(20, 1000), (80, 1050)]).2.length = 1 ∧
    (runSetVirtualCalls (mkStore 100 2000 200) "m" [(20, 1000), (80, 1050)]).2 ≠
      [{ monitorId := "m", brightness := 80 }] := by
  have hrun :
      (runSetVirtualCalls (mkStore 100 2000 200) "m" [(20, 1000), (80, 1050)]).2 =
        [{ monitorId := "m", brightness := 20 }] := by
    norm_num [runSetVirtualCalls, setVirtualBrightness, mkStore, clamp,
      startEnforcement, mapSet, getOrCreateMonitorState]
  rw [hrun]
  refine ⟨rfl, ?_⟩
  intro hcontr
  have : (20 : ℚ) = 80 := congrArg WriteRequest.brightness (List.head_eq_of_cons_eq hcontr)
  norm_num at this

/-- Once no enforcement entry exists for a monitor, the interval callback
never emits again (it only unsubscribes). -/
theorem runEnforcementTicks_no_enforcement (monitorId : String)
    (ts : List ℚ) (s : Store)
    (h : s.enforcementStates monitorId = none) :
    runEnforcementTicks s monitorId ts = (s, []) := by
  induction ts with
  | nil => rfl
  | cons t ts ih => simp [runEnforcementTicks, enforcementTick, h, ih]

/-- C2: when polling reports a value whose normalized form rounds to the
active enforcement target, `updateRealBrightness` cancels the
enforcement task (and no retry write is ever emitted for that id
afterwards); independently, the stored virtual value is overwritten
with the normalized real value exactly when no enforcement task
remains active after the cancellation check. -/
theorem updateReal_cancels_enforcement_and_gates_virtual (s : Store)
    (monitorId : String) (brightness maxBrightness : ℚ) :
    (∀ e, s.enforcementStates monitorId = some e →
      jsRound (normalizeBrightness brightness maxBrightness) =
        jsRound e.targetBrightness →
      (updateRealBrightness s monitorId brightness maxBrightness).enforcementStates
          monitorId = none ∧
      ∀ ts : List ℚ,
        (runEnforcementTicks
          (updateRealBrightness s monitorId brightness maxBrightness)
          monitorId ts).2 = []) ∧
    (updateRealBrightness s monitorId brightness maxBrightness).monitorStates
        monitorId =
      some { getOrCreateMonitorState s monitorId with
             realBrightness := normalizeBrightness brightness maxBrightness
             maxBrightness := maxBrightness
             virtualBrightness :=
               if ((updateRealBrightness s monitorId brightness
                     maxBrightness).enforcementStates monitorId).isNone
               then normalizeBrightness brightness maxBrightness
               else (getOrCreateMonitorState s monitorId).virtualBrightness } := by
  cases h : s.enforcementStates monitorId with
  | none =>
      constructor
      · intro e he
        exact absurd he (by simp)
      · simp [updateRealBrightness, h, mapSet]
  | some e =>
      by_cases hr : jsRound (normalizeBrightness brightness maxBrightness) =
          jsRound e.targetBrightness
      · have henf : (updateRealBrightness s monitorId brightness
            maxBrightness).enforcementStates monitorId = none := by
          simp [updateRealBrightness, h, hr, stopEnforcement, mapDelete]
        constructor
        · intro e' he' _
          refine ⟨henf, fun ts => ?_⟩
          rw [runEnforcementTicks_no_enforcement monitorId ts _ henf]
        · simp [updateRealBrightness, h, hr, stopEnforcement, mapDelete, mapSet]
      · constructor
        · intro e' he' hr'
          cases he'
          exact absurd hr' hr
        · simp [updateRealBrightness, h, hr, mapSet]

/-- Witness for `updateReal_cancels_enforcement_and_gates_virtual`: a
store enforcing target 42 for "m" is cancelled by a polled reading of
raw 42 with max 100. -/
theorem updateReal_cancels_enforcement_and_gates_virtual_witness :
    (updateRealBrightness (startEnforcement (mkStore 100 2000 200) "m" 42 0)
        "m" 42 100).enforcementStates "m" = none := by
  have h := (updateReal_cancels_enforcement_and_gates_virtual
      (startEnforcement (mkStore 100 2000 200) "m" 42 0) "m" 42 100).1
    { targetBrightness := 42, startTime := 0 }
    (by simp [startEnforcement, mkStore, mapSet])
    (by norm_num [normalizeBrightness])
  exact h.1

/-- Lemma: the clamp to [0,100] lands in [0,100]. -/
theorem clamp_range (v : ℚ) : 0 ≤ clamp v 0 100 ∧ clamp v 0 100 ≤ 100 := by
  unfold clamp
  constructor
  · exact le_max_left 0 _
  · exact max_le (by norm_num) (min_le_left 100 v)

/-- Lemma: normalization of a raw value within [0, maxRaw] with positive
maxRaw lands in [0,100]. -/
theorem normalize_range (raw maxRaw : ℚ) (h0 : 0 < maxRaw) (h1 : 0 ≤ raw)
    (h2 : raw ≤ maxRaw) :
    0 ≤ normalizeBrightness raw maxRaw ∧
      normalizeBrightness raw maxRaw ≤ 100 := by
  unfold normalizeBrightness
  rw [if_pos h0]
  have hq : raw / maxRaw ≤ 1 := (div_le_one h0).mpr h2
  have hq0 : 0 ≤ raw / maxRaw := div_nonneg h1 h0.le
  constructor
  · positivity
  · have h100 := mul_le_mul_of_nonneg_right hq (show (0:ℚ) ≤ 100 by norm_num)
    linarith

/-- Lemma: reading or lazily creating a state preserves the range
invariant (the default state is in range). -/
theorem getOrCreate_range (s : Store) (monitorId : String)
    (hs : storeInRange s) :
    stateInRange (getOrCreateMonitorState s monitorId) := by
  unfold getOrCreateMonitorState
  cases h : s.monitorStates monitorId with
  | none => simp [defaultMonitorState, stateInRange]
  | some st => simpa using hs monitorId st h

/-- Lemma: `startEnforcement` leaves the monitor-state map untouched. -/
theorem startEnforcement_monitorStates (s : Store) (monitorId : String)
    (tv n : ℚ) :
    (startEnforcement s monitorId tv n).monitorStates = s.monitorStates := by
  unfold startEnforcement
  cases s.enforcementStates monitorId <;> rfl

/-- The monitor-state map after `setVirtualBrightness`: only the virtual
value (clamped) and the user timestamp change, regardless of the
throttle branch. -/
theorem setVirtual_monitorStates (s : Store) (monitorId : String)
    (v now : ℚ) :
    (setVirtualBrightness s monitorId v now).1.monitorStates =
      mapSet s.monitorStates monitorId
        { getOrCreateMonitorState s monitorId with
          virtualBrightness := clamp v 0 100
          lastUserUpdate := now } := by
  unfold setVirtualBrightness
  simp only [startEnforcement_monitorStates]
  split <;> rfl

/-- C3 (amended): the 0..100 invariant on stored real/virtual values is
preserved by `setVirtualBrightness` for every input (it clamps), and
by `updateRealBrightness` provided the polled raw value satisfies
`0 <= rawValue <= maxRawValue` with `maxRawValue > 0`; outside those
bounds normalization is not clamped and the invariant can break. -/
theorem store_ops_preserve_range (s : Store) (monitorId : String)
    (hs : storeInRange s) :
    (∀ v now, storeInRange (setVirtualBrightness s monitorId v now).1) ∧
    (∀ raw maxRaw, 0 < maxRaw → 0 ≤ raw → raw ≤ maxRaw →
      storeInRange (updateRealBrightness s monitorId raw maxRaw)) := by
  have hcur := getOrCreate_range s monitorId hs
  constructor
  · intro v now id' st' hlook
    rw [setVirtual_monitorStates] at hlook
    unfold mapSet at hlook
    by_cases hid : id' = monitorId
    · rw [if_pos hid] at hlook
      cases hlook
      obtain ⟨hc0, hc1⟩ := clamp_range v
      exact ⟨hcur.1, hcur.2.1, hc0, hc1⟩
    · rw [if_neg hid] at hlook
      exact hs id' st' hlook
  · intro raw maxRaw h0 h1 h2 id' st' hlook
    obtain ⟨hn0, hn1⟩ := normalize_range raw maxRaw h0 h1 h2
    unfold updateRealBrightness at hlook
    simp only [mapSet] at hlook
    by_cases hid : id' = monitorId
    · rw [if_pos hid] at hlook
      cases hlook
      refine ⟨hn0, hn1, ?_, ?_⟩ <;> dsimp only <;> split
      · exact hn0
      · exact hcur.2.2.1
      · exact hn1
      · exact hcur.2.2.2
    · rw [if_neg hid] at hlook
      refine hs id' st' ?_
      rcases hmatch : s.enforcementStates monitorId with _ | e
      · rw [hmatch] at hlook; exact hlook
      · rw [hmatch] at hlook
        dsimp only at hlook
        split at hlook
        · simp only [stopEnforcement, hmatch] at hlook
          exact hlook
        · exact hlook

/-- Witness for `store_ops_preserve_range` on the empty store. -/
theorem store_ops_preserve_range_witness :
    storeInRange (setVirtualBrightness (mkStore 100 2000 200) "m" 150 0).1 ∧
    storeInRange (updateRealBrightness (mkStore 100 2000 200) "m" 30 60) := by
  have hempty : storeInRange (mkStore 100 2000 200) := by
    intro id st h
    simp [mkStore] at h
  have h := store_ops_preserve_range (mkStore 100 2000 200) "m" hempty
  exact ⟨h.1 150 0, h.2 30 60 (by norm_num) (by norm_num) (by norm_num)⟩

/-- Counterexample to C3 as stated: polling raw value 200 against max 100
stores a real (and virtual) brightness of 200, outside 0..100 —
`updateRealBrightness` does not clamp its normalized value. -/
theorem updateReal_range_cx :
    ¬ storeInRange (updateRealBrightness (mkStore 100 2000 200) "m" 200 100) := by
  intro hall
  have hst : (updateRealBrightness (mkStore 100 2000 200) "m" 200 100).monitorStates "m" =
      some { realBrightness := 200, virtualBrightness := 200
             lastUserUpdate := 0, maxBrightness := 100 } := by
    norm_num [updateRealBrightness, mkStore, normalizeBrightness,
      getOrCreateMonitorState, defaultMonitorState, mapSet]
  have h2 := (hall "m" _ hst).2.1
  norm_num at h2

/-- Each write the enforcement run emits comes from a tick strictly
inside the enforcement duration; at the first tick at or past the
deadline the task is removed and nothing further is emitted. -/
theorem runTicks_emissions_le_filter (monitorId : String)
    (e : EnforcementState) :
    ∀ (ts : List ℚ) (s : Store), s.enforcementStates monitorId = some e →
    (runEnforcementTicks s monitorId ts).2.length ≤
      (ts.filter
        (fun t => decide (t - e.startTime < s.enforcementDurationMs))).length := by
  intro ts
  induction ts with
  | nil => intro s _; simp [runEnforcementTicks]
  | cons t ts ih =>
      intro s h
      by_cases hstop : s.enforcementDurationMs ≤ t - e.startTime
      · have htick : enforcementTick s monitorId t = (stopEnforcement s monitorId, []) := by
          simp [enforcementTick, h, hstop]
        have hnone : (stopEnforcement s monitorId).enforcementStates monitorId = none := by
          simp [stopEnforcement, h, mapDelete]
        have hrest := runEnforcementTicks_no_enforcement monitorId ts _ hnone
        simp [runEnforcementTicks, htick, hrest]
      · have htick : enforcementTick s monitorId t =
            (s, [{ monitorId := monitorId, brightness := e.targetBrightness }]) := by
          simp [enforcementTick, h, hstop]
        have hlt : t - e.startTime < s.enforcementDurationMs := not_le.mp hstop
        have hrec := ih s h
        simp only [runEnforcementTicks, htick, List.length_append,
          List.length_cons, List.length_nil]
        rw [List.filter_cons_of_pos (by simpa using hlt)]
        simp only [List.length_cons]
        omega

/-- Lemma: filtering after a map counts the mapped elements satisfying
the composed predicate. -/
theorem length_filter_map_eq (f : ℕ → ℚ) (p : ℚ → Bool) (l : List ℕ) :
    ((l.map f).filter p).length = (l.filter (fun k => p (f k))).length := by
  induction l with
  | nil => rfl
  | cons a l ih => by_cases h : p (f a) <;> simp [h, ih]

/-- Lemma: a duplicate-free list of naturals all below m has length at
most m. -/
theorem nodup_bounded_length (l : List ℕ) (m : ℕ) (hnd : l.Nodup)
    (hb : ∀ k ∈ l, k < m) : l.length ≤ m := by
  classical
  have h1 : l.toFinset.card = l.length := List.toFinset_card_of_nodup hnd
  have h2 : l.toFinset ⊆ Finset.range m := by
    intro x hx
    rw [List.mem_toFinset] at hx
    exact Finset.mem_range.mpr (hb x hx)
  have h3 := Finset.card_le_card h2
  rw [h1, Finset.card_range] at h3
  exact h3

/-- Over the idealized interval schedule (tick k fires at
`startTime + k * intervalMs`), the ticks strictly inside the duration
number at most `ceil(durationMs / intervalMs)`. -/
theorem schedule_filter_le_ceil (startTime durationMs intervalMs : ℚ)
    (hi : 0 < intervalMs) (n : ℕ) :
    (((List.range n).map
        (fun (k : ℕ) => startTime + ((k : ℚ) + 1) * intervalMs)).filter
      (fun t => decide (t - startTime < durationMs))).length ≤
      ⌈durationMs / intervalMs⌉₊ := by
  rw [length_filter_map_eq]
  apply nodup_bounded_length
  · exact List.Nodup.filter _ (List.nodup_range n)
  · intro k hk
    have hmem := List.of_mem_filter hk
    simp only [decide_eq_true_eq] at hmem
    have hklt : ((k : ℚ) + 1) * intervalMs < durationMs := by linarith
    have hkq : (k : ℚ) < durationMs / intervalMs := by
      rw [lt_div_iff₀ hi]
      nlinarith
    exact Nat.lt_ceil.mpr hkq

/-- C4: with an active enforcement task, (a) the first interval tick
whose elapsed time reaches `enforcementDurationMs` removes the task
and emits nothing, and (b) over the interval schedule the task emits
at most `ceil(enforcementDurationMs / enforcementIntervalMs)` retry
write requests before self-cancelling. -/
theorem enforcement_expiry_bounded (s : Store) (monitorId : String)
    (e : EnforcementState) (n : ℕ)
    (henf : s.enforcementStates monitorId = some e)
    (hi : 0 < s.enforcementIntervalMs) :
    (∀ t, s.enforcementDurationMs ≤ t - e.startTime →
      enforcementTick s monitorId t = (stopEnforcement s monitorId, []) ∧
      (stopEnforcement s monitorId).enforcementStates monitorId = none) ∧
    (runEnforcementTicks s monitorId
        ((List.range n).map
          (fun (k : ℕ) => e.startTime + ((k : ℚ) + 1) * s.enforcementIntervalMs))).2.length ≤
      ⌈s.enforcementDurationMs / s.enforcementIntervalMs⌉₊ := by
  constructor
  · intro t ht
    constructor
    · simp [enforcementTick, henf, ht]
    · simp [stopEnforcement, henf, mapDelete]
  · refine le_trans (runTicks_emissions_le_filter monitorId e _ s henf) ?_
    exact schedule_filter_le_ceil e.startTime s.enforcementDurationMs
      s.enforcementIntervalMs hi n

/-- Witness for `enforcement_expiry_bounded`: enforcing target 42 with a
1000ms duration and 300ms interval, ten scheduled ticks emit at most
ceil(1000/300) = 4 write requests. -/
theorem enforcement_expiry_bounded_witness :
    (runEnforcementTicks (startEnforcement (mkStore 100 1000 300) "m" 42 0) "m"
        ((List.range 10).map (fun (k : ℕ) => (0 : ℚ) + ((k : ℚ) + 1) *
          (startEnforcement (mkStore 100 1000 300) "m" 42 0).enforcementIntervalMs))).2.length ≤
      ⌈(startEnforcement (mkStore 100 1000 300) "m" 42 0).enforcementDurationMs /
        (startEnforcement (mkStore 100 1000 300) "m" 42 0).enforcementIntervalMs⌉₊ := by
  have h := (enforcement_expiry_bounded
      (startEnforcement (mkStore 100 1000 300) "m" 42 0) "m"
      { targetBrightness := 42, startTime := 0 } 10
      (by simp [startEnforcement, mkStore, mapSet])
      (by norm_num [startEnforcement, mkStore])).2
  simpa using h

/-- The stored failure count tracks the spec-side consecutive-failure
count. -/
theorem applyReadEvents_count (monitorId : String) :
    ∀ (evs : List ReadEvent) (m : String → Option ℕ),
    ((applyReadEvents m evs) monitorId).getD 0 =
      consecutiveFailuresFrom ((m monitorId).getD 0) monitorId evs := by
  intro evs
  induction evs with
  | nil => intro m; rfl
  | cons ev evs ih =>
      intro m
      cases ev with
      | success otherId =>
          rw [applyReadEvents, consecutiveFailuresFrom, ih]
          by_cases h : otherId = monitorId
          · subst h
            simp [registerReadSuccess, mapDelete]
          · have h2 : ¬ monitorId = otherId := fun hc => h hc.symm
            simp [registerReadSuccess, mapDelete, h, h2]
      | failure otherId =>
          rw [applyReadEvents, consecutiveFailuresFrom, ih]
          by_cases h : otherId = monitorId
          · subst h
            simp [registerReadFailure, mapSet]
          · have h2 : ¬ monitorId = otherId := fun hc => h hc.symm
            simp [registerReadFailure, mapSet, h, h2]

/-- C5: after any sequence of register calls starting from the empty map,
`hasReachedFailureThreshold` holds exactly when at least 3 consecutive
failures for that id occurred with no intervening success; and one
`registerReadSuccess` resets the stored count to 0. -/
theorem hasReachedThreshold_iff_three_consecutive (evs : List ReadEvent)
    (monitorId : String) :
    (hasReachedFailureThreshold (applyReadEvents (fun _ => none) evs)
        monitorId = true ↔
      3 ≤ consecutiveFailures monitorId evs) ∧
    (∀ m : String → Option ℕ,
      ((registerReadSuccess m monitorId) monitorId).getD 0 = 0) := by
  constructor
  · rw [hasReachedFailureThreshold, applyReadEvents_count]
    simp [AVAILABILITY_FAILURE_THRESHOLD, consecutiveFailures]
  · intro m
    simp [registerReadSuccess, mapDelete]

/-- C6 (amended): the id-derivation cascade, first applicable rule wins.
The platform displayId is used exactly when truthy, free of every
unstable pattern and starting with some stable prefix; otherwise a
truthy human-readable serial number yields the serial-only id
`serial:<serialNumber>` (NOT a manufacturer+model+serial composite);
the lower-priority rules (manufacturer+model+numeric-serial composite,
EDID-header hash, manufacturer+model composite,
backend+displayId+index fallback) apply only when every
higher-priority signal is absent. -/
theorem generateStableId_priority (d : Display) :
    (isDisplayIdStable d.displayId = true ↔
      ((∀ u ∈ unstablePatternList, strIncludes d.displayId u = false) ∧
       (∃ pre ∈ stablePrefixList, strStartsWith d.displayId pre = true))) ∧
    (truthyStr d.displayId = true → isDisplayIdStable d.displayId = true →
      generateStableId d = d.displayId) ∧
    ((truthyStr d.displayId && isDisplayIdStable d.displayId) = false →
      truthyStr d.serialNumber = true →
      generateStableId d = "serial:" ++ d.serialNumber) ∧
    ((truthyStr d.displayId && isDisplayIdStable d.displayId) = false →
      truthyStr d.serialNumber = false →
      truthyStr d.manufacturerId = true → truthyStr d.modelName = true →
      truthyNum d.serial = true →
      generateStableId d =
        "composite:" ++ d.manufacturerId ++ ":" ++ d.modelName ++ ":" ++
          toString (d.serial.getD 0)) ∧
    ((truthyStr d.displayId && isDisplayIdStable d.displayId) = false →
      truthyStr d.serialNumber = false →
      (truthyStr d.manufacturerId && truthyStr d.modelName &&
        truthyNum d.serial) = false →
      hasNonemptyEdid d.edidData = true →
      generateStableId d = "edid:" ++ edidHeaderHex (d.edidData.getD [])) ∧
    ((truthyStr d.displayId && isDisplayIdStable d.displayId) = false →
      truthyStr d.serialNumber = false →
      (truthyStr d.manufacturerId && truthyStr d.modelName &&
        truthyNum d.serial) = false →
      hasNonemptyEdid d.edidData = false →
      truthyStr d.manufacturerId = true → truthyStr d.modelName = true →
      generateStableId d =
        "composite:" ++ d.manufacturerId ++ ":" ++ d.modelName) ∧
    ((truthyStr d.displayId && isDisplayIdStable d.displayId) = false →
      truthyStr d.serialNumber = false →
      (truthyStr d.manufacturerId && truthyStr d.modelName &&
        truthyNum d.serial) = false →
      hasNonemptyEdid d.edidData = false →
      (truthyStr d.manufacturerId && truthyStr d.modelName) = false →
      generateStableId d =
        "fallback:" ++ d.backend ++ ":" ++ d.displayId ++ ":" ++
          toString d.index) := by
  refine ⟨?_, ?_, ?_, ?_, ?_, ?_, ?_⟩
  · unfold isDisplayIdStable
    by_cases hu : unstablePatternList.any (fun pat => strIncludes d.displayId pat) = true
    · rw [if_pos hu]
      simp only [List.any_eq_true] at hu
      obtain ⟨u, hm, hinc⟩ := hu
      constructor
      · intro h; cases h
      · rintro ⟨hall, -⟩
        rw [hall u hm] at hinc
        cases hinc
    · rw [if_neg hu]
      constructor
      · intro h
        refine ⟨?_, by simpa [List.any_eq_true] using h⟩
        intro u hm
        by_contra hne
        exact hu (List.any_eq_true.mpr ⟨u, hm, by simpa using hne⟩)
      · rintro ⟨-, hex⟩
        simpa [List.any_eq_true] using hex
  · intro h1 h2
    simp [generateStableId, h1, h2]
  · intro h1 h2
    simp [generateStableId, h1, h2]
  · intro h1 h2 h3 h4 h5
    simp [generateStableId, h1, h2, h3, h4, h5]
  · intro h1 h2 h3 h4
    simp [generateStableId, h1, h2, h3, h4]
  · intro h1 h2 h3 h4 h5 h6
    have h7 : truthyNum d.serial = false := by
      rw [h5, h6] at h3
      simpa using h3
    simp [generateStableId, h1, h2, h3, h4, h5, h6, h7]
  · intro h1 h2 h3 h4 h5
    simp [generateStableId, h1, h2, h3, h4, h5]

/-- Counterexample to C6 as stated: with an unstable displayId and a
human-readable serial number present, the id is `serial:304NTPC4A088`
— derived from the serial alone — and does not even contain the
manufacturer id "GSM", so it is not the claimed
manufacturer+model+serial composite. -/
theorem generateStableId_serial_only_cx :
    generateStableId dispSerialCx = "serial:304NTPC4A088" ∧
    strIncludes (generateStableId dispSerialCx) "GSM" = false ∧
    dispSerialCx.manufacturerId = "GSM" := by
  refine ⟨by decide, by decide, by decide⟩

/-- Witness for `generateStableId_priority`: the serial-number rule fires
on the counterexample display. -/
theorem generateStableId_priority_witness :
    generateStableId dispSerialCx = "serial:" ++ dispSerialCx.serialNumber := by
  exact (generateStableId_priority dispSerialCx).2.2.1 (by decide) (by decide)

/-- C7: for two tested entries sharing a stable id, deduplication keeps
the one that successfully read the feature over the one that failed
(in either order), and between two successes keeps the one carrying a
non-empty EDID blob. -/
theorem dedup_preference (e1 e2 : TestedMonitor) (h : e1.id = e2.id) :
    (refreshDedup [(e1, true), (e2, false)] e1.id = some (e1, true)) ∧
    (refreshDedup [(e1, false), (e2, true)] e1.id = some (e2, true)) ∧
    (e1.hasEdid = true → e2.hasEdid = false →
      refreshDedup [(e1, true), (e2, true)] e1.id = some (e1, true)) ∧
    (e1.hasEdid = false → e2.hasEdid = true →
      refreshDedup [(e1, true), (e2, true)] e1.id = some (e2, true)) := by
  refine ⟨?_, ?_, ?_, ?_⟩
  · simp [refreshDedup, dedupSuccesses, failedById, dedupStep, mapSet, h]
  · simp [refreshDedup, dedupSuccesses, failedById, dedupStep, mapSet, h]
  · intro he1 he2
    simp [refreshDedup, dedupSuccesses, failedById, dedupStep, mapSet, h, he1, he2]
  · intro he1 he2
    simp [refreshDedup, dedupSuccesses, failedById, dedupStep, mapSet, h, he1, he2]

/-- Witness for `dedup_preference`: two successes for id "x", only the
first carrying EDID data — the EDID-bearing entry is kept. -/
theorem dedup_preference_witness :
    refreshDedup [(⟨"x", true⟩, true), (⟨"x", false⟩, true)] "x" =
      some (⟨"x", true⟩, true) := by
  exact (dedup_preference ⟨"x", true⟩ ⟨"x", false⟩ rfl).2.2.1 rfl rfl

/-- Lemma: the tail stage of `distinctUntilChanged` yields pairwise
distinct neighbours, none equal to the previously emitted value. -/
theorem distinctAfter_spec (l : List ℚ) :
    ∀ prev, List.Chain' (· ≠ ·) (distinctAfter prev l) ∧
      ∀ y ∈ (distinctAfter prev l).head?, y ≠ prev := by
  induction l with
  | nil =>
      intro prev
      exact ⟨List.chain'_nil, by intro y hy; cases hy⟩
  | cons x xs ih =>
      intro prev
      by_cases hx : x = prev
      · rw [distinctAfter, if_pos hx]
        subst hx
        exact ih x
      · rw [distinctAfter, if_neg hx]
        obtain ⟨hch, hhd⟩ := ih x
        refine ⟨?_, ?_⟩
        · rw [List.chain'_cons']
          exact ⟨fun y hy => (hhd y hy).symm, hch⟩
        · intro y hy
          simp only [List.head?_cons, Option.mem_def, Option.some.injEq] at hy
          subst hy
          exact hx

/-- Lemma: `distinctUntilChanged` never lets two equal values through
consecutively. -/
theorem distinctUntilChanged_chain (l : List ℚ) :
    List.Chain' (· ≠ ·) (distinctUntilChanged l) := by
  cases l with
  | nil => exact List.chain'_nil
  | cons x xs =>
      rw [distinctUntilChanged, List.chain'_cons']
      obtain ⟨hch, hhd⟩ := distinctAfter_spec xs x
      exact ⟨fun y hy => (hhd y hy).symm, hch⟩

/-- C8: `getAverageVirtualBrightness` of an empty id list is 0; over ids
with virtual values 20 and 80 it is their mean 50; and the derived
average stream only emits distinct consecutive values (consecutive
identical averages are de-duplicated, so at most one emission per
distinct resulting average). -/
theorem average_computation_and_stream :
    (∀ s : Store, getAverageVirtualBrightness s [] = 0) ∧
    getAverageVirtualBrightness demoStore ["a", "b"] = 50 ∧
    (∀ snapshots : List (List ℚ),
      List.Chain' (· ≠ ·) (averageStreamEmissions snapshots)) := by
  refine ⟨?_, ?_, ?_⟩
  · intro s
    simp [getAverageVirtualBrightness]
  · have hba : ¬ ("b" : String) = "a" := by decide
    have hab : ¬ ("a" : String) = "b" := by decide
    norm_num [demoStore, getAverageVirtualBrightness, setVirtualBrightness,
      mkStore, clamp, startEnforcement, mapSet, getOrCreateMonitorState,
      defaultMonitorState, List.filterMap_cons, List.filterMap_nil, hba, hab]
  · intro snapshots
    exact distinctUntilChanged_chain _

/-- C9 (amended): a refresh emits no change notification exactly when the
new list matches the cache in length and every new entry finds a
cached record of its id agreeing on availability, backend, name AND
runtime index — the runtime enumeration index is part of the
observable change, beyond the four aspects the claim lists. -/
theorem refresh_emits_iff_observable_change (cache newInfos : List MonitorInfo) :
    refreshEmitsChange cache newInfos = false ↔
      (newInfos.length = cache.length ∧
       ∀ m ∈ newInfos, ∃ cached, mapById cache m.id = some cached ∧
         cached.available = m.available ∧ cached.backend = m.backend ∧
         cached.runtimeIndex = m.runtimeIndex ∧ cached.name = m.name) := by
  unfold refreshEmitsChange hasMonitorListChanged
  by_cases hlen : newInfos.length = cache.length
  · rw [if_neg (by simp [hlen])]
    rw [List.any_eq_false]
    constructor
    · intro hall
      refine ⟨hlen, ?_⟩
      intro m hm
      have hf := hall m hm
      cases hmb : mapById cache m.id with
      | none => rw [hmb] at hf; simp at hf
      | some cached =>
          rw [hmb] at hf
          rw [Bool.not_eq_true] at hf
          simp only [Bool.or_eq_false_iff, bne_eq_false_iff_eq] at hf
          exact ⟨cached, rfl, hf.1.1.1, hf.1.1.2, hf.1.2, hf.2⟩
    · rintro ⟨-, hall⟩
      intro m hm
      obtain ⟨cached, hmb, h1, h2, h3, h4⟩ := hall m hm
      rw [hmb]
      simp [h1, h2, h3, h4]
  · rw [if_pos (by simpa using hlen)]
    simp only [Bool.true_eq_false, false_iff]
    intro hc
    exact hlen hc.1

/-- Counterexample to C9 as stated: the new list agrees with the cache on
the id set, availability, backend and name, yet the refresh still
emits a change notification (the runtime index moved from 0 to 1). -/
theorem refresh_emits_on_runtimeIndex_only_change :
    [cxCacheInfo].map MonitorInfo.id = [cxNewInfo].map MonitorInfo.id ∧
    [cxCacheInfo].map MonitorInfo.available =
      [cxNewInfo].map MonitorInfo.available ∧
    [cxCacheInfo].map MonitorInfo.backend = [cxNewInfo].map MonitorInfo.backend ∧
    [cxCacheInfo].map MonitorInfo.name = [cxNewInfo].map MonitorInfo.name ∧
    refreshEmitsChange [cxCacheInfo] [cxNewInfo] = true := by
  refine ⟨by decide, by decide, by decide, by decide, by decide⟩

/-- Lemma: a filterMap only consumes the elements on which the function
is defined. -/
theorem filterMap_filter_isSome {α β : Type} (f : α → Option β)
    (l : List α) :
    l.filterMap f = (l.filter (fun a => (f a).isSome)).filterMap f := by
  induction l with
  | nil => rfl
  | cons a l ih =>
      cases hf : f a <;>
        simp [List.filterMap_cons, List.filter_cons, hf, ih]

/-- C10: ids without store state contribute to neither the sum nor the
divisor of `getAverageVirtualBrightness` — the result over any id list
equals the result over just its known ids, and a list of entirely
unknown ids (empty or not) yields 0. -/
theorem average_ignores_unknown_ids (s : Store) (monitorIds : List String) :
    ((∀ monitorId ∈ monitorIds, s.monitorStates monitorId = none) →
      getAverageVirtualBrightness s monitorIds = 0) ∧
    getAverageVirtualBrightness s monitorIds =
      getAverageVirtualBrightness s
        (monitorIds.filter (fun monitorId => (s.monitorStates monitorId).isSome)) := by
  have hf : ∀ monitorId,
      ((s.monitorStates monitorId).map (·.virtualBrightness)).isSome =
        (s.monitorStates monitorId).isSome := by
    intro monitorId
    cases s.monitorStates monitorId <;> rfl
  have hvals : monitorIds.filterMap
      (fun monitorId => (s.monitorStates monitorId).map (·.virtualBrightness)) =
      (monitorIds.filter (fun monitorId => (s.monitorStates monitorId).isSome)).filterMap
        (fun monitorId => (s.monitorStates monitorId).map (·.virtualBrightness)) := by
    have h := filterMap_filter_isSome
      (fun monitorId => (s.monitorStates monitorId).map (·.virtualBrightness))
      monitorIds
    simpa [hf] using h
  constructor
  · intro hall
    unfold getAverageVirtualBrightness
    by_cases h0 : monitorIds.length = 0
    · rw [if_pos h0]
    · rw [if_neg h0]
      have hnil : monitorIds.filterMap
          (fun monitorId => (s.monitorStates monitorId).map (·.virtualBrightness)) = [] := by
        rw [List.filterMap_eq_nil_iff]
        intro a ha
        rw [hall a ha]
        rfl
      simp [hnil]
  · unfold getAverageVirtualBrightness
    by_cases h0 : monitorIds.length = 0
    · have he : monitorIds = [] := List.length_eq_zero.mp h0
      subst he
      rfl
    · rw [if_neg h0]
      by_cases hfl : (monitorIds.filter
          (fun monitorId => (s.monitorStates monitorId).isSome)).length = 0
      · rw [if_pos hfl]
        have hfe : monitorIds.filter
            (fun monitorId => (s.monitorStates monitorId).isSome) = [] :=
          List.length_eq_zero.mp hfl
        rw [hvals, hfe]
        simp
      · rw [if_neg hfl, hvals]

/-- Witness for `average_ignores_unknown_ids`: a non-empty list of two
ids unknown to the empty store averages to 0. -/
theorem average_ignores_unknown_ids_witness :
    getAverageVirtualBrightness (mkStore 100 2000 200) ["x", "y"] = 0 := by
  exact (average_ignores_unknown_ids (mkStore 100 2000 200) ["x", "y"]).1
    (by intro monitorId _; simp [mkStore])
